import Mathlib

/-!
Verification of the metric collection and aggregation pipeline of the
`render_exporter` repository (src/metrics.ts, src/resourceCache.ts).

The TypeScript source is shallowly embedded as executable Lean functions:

* JavaScript objects used as string-keyed maps (`Record<string, string>`)
  are embedded as association lists in insertion order; property
  assignment (`recordSet`) overwrites an existing key in place and
  appends a fresh key at the end, exactly like a JS object with
  non-integer string keys.
* `undefined`-able values are embedded as `Option`.
* JavaScript truthiness on strings (`x || dflt`, where both `undefined`
  and the empty string are falsy) is embedded by `truthyOr`.
* Rejected promises are embedded as `Except.error`; `Promise.all` is the
  monadic `mapM`, which propagates the first rejection.
* `keyA.localeCompare(keyB)` is embedded as the standard lexicographic
  order on strings (adequate for the ASCII label keys this program
  produces); `Array.prototype.sort` is embedded by the stable
  `List.mergeSort`.
* Wall-clock timestamps are passed in as explicit parameters.
-/

/-- A Render service as returned by the upstream API: a provider-assigned
identifier and a display name. Only the fields the pipeline reads are
embedded. -/
structure Service where
  id : String
  name : String
deriving DecidableEq, Repr

/-- One `field`/`value` pair of an upstream series label set; either side
may be `undefined` upstream. -/
structure MetricLabel where
  field : Option String
  value : Option String
deriving DecidableEq, Repr

/-- One timestamped sample of an upstream time series. The numeric payload
is embedded as an integer; none of the verified properties depend on the
numeric domain. -/
structure TimePoint where
  timestamp : String
  value : Int
deriving DecidableEq, Repr

/-- One per-resource series of an upstream metrics response: a unit
string, an optional label set (the source guards with `metric.labels?.`),
and an ordered oldest-to-newest list of samples. -/
structure MetricResponse where
  unit : String
  labels : Option (List MetricLabel)
  values : List TimePoint
deriving DecidableEq, Repr

/-- `interface MetricDefinition` of src/metrics.ts. -/
structure MetricDefinition where
  name : String
  help : String
  type : String
deriving DecidableEq, Repr

/-- A JS object used as a string-to-string map, in property insertion
order. -/
abbrev LabelRecord := List (String × String)

/-- Property read `r[k]` on a JS object embedded as `LabelRecord`. -/
def recordGet (r : LabelRecord) (k : String) : Option String :=
  (r.find? (fun p => p.1 = k)).map (fun p => p.2)

/-- Property assignment `r[k] = v` on a JS object embedded as
`LabelRecord`: an existing key keeps its position and gets the new value,
a fresh key is appended at the end. -/
def recordSet (r : LabelRecord) (k v : String) : LabelRecord :=
  if r.any (fun p => p.1 = k) then
    r.map (fun p => if p.1 = k then (k, v) else p)
  else
    r ++ [(k, v)]

/-- JS string truthiness choice `x || dflt`: both `undefined` and the
empty string fall back to the default. -/
def truthyOr (x : Option String) (dflt : String) : String :=
  match x with
  | some v => if v = "" then dflt else v
  | none => dflt

/-- Rendering of a possibly-`undefined` string inside a JS template
literal: `undefined` renders as the string `undefined`. -/
def jsString (x : Option String) : String :=
  x.getD "undefined"

/-- `interface MetricValue` of src/metrics.ts. -/
structure MetricValue where
  labels : LabelRecord
  value : Int
deriving DecidableEq, Repr

/-- `interface MetricResult` of src/metrics.ts. -/
structure MetricResult where
  definition : MetricDefinition
  values : List MetricValue
deriving DecidableEq, Repr

/-- `chunkArray` of src/metrics.ts: the loop
`for (i = 0; i < array.length; i += chunkSize) push(array.slice(i, i + chunkSize))`
expressed as recursion on the unprocessed suffix
(`array.slice(i, i + chunkSize)` is `take chunkSize` of `drop i`). The
source loop does not terminate when `chunkSize = 0`; the function is only
ever called with positive chunk sizes and the embedding returns `[]` in
that unreachable case. -/
def chunkArray {α : Type} (array : List α) (chunkSize : Nat) : List (List α) :=
  if array.isEmpty then []
  else if chunkSize = 0 then []
  else array.take chunkSize :: chunkArray (array.drop chunkSize) chunkSize
termination_by array.length
decreasing_by
  simp only [List.length_drop]
  rename_i h1 h2
  simp only [List.isEmpty_iff] at h1
  have h3 : 0 < array.length := List.length_pos.mpr h1
  omega

/-- `formatMetricHeader` of src/metrics.ts. -/
def formatMetricHeader (metric : MetricDefinition) : String :=
  "# HELP " ++ metric.name ++ " " ++ metric.help ++ "\n# TYPE " ++
    metric.name ++ " " ++ metric.type ++ "\n"

/-- The label sort of `formatMetricValues`:
`Object.entries(value.labels).sort(([keyA], [keyB]) => keyA.localeCompare(keyB))`.
`Object.entries` yields insertion order, the comparison is embedded as the
lexicographic string order, and `List.mergeSort` is stable like
`Array.prototype.sort`. -/
def sortLabels (labels : LabelRecord) : LabelRecord :=
  labels.mergeSort (fun p q => decide (p.1 ≤ q.1))

/-- The line produced for a single point by `formatMetricValues`:
name, sorted brace-delimited `key="value"` list, value. -/
def renderLine (metricName : String) (value : MetricValue) : String :=
  metricName ++ "\x7b" ++
    String.intercalate ", "
      ((sortLabels value.labels).map (fun p => p.1 ++ "=\"" ++ p.2 ++ "\"")) ++
    "\x7d " ++ toString value.value

/-- `formatMetricValues` of src/metrics.ts: one line per point joined by
newlines, with a trailing newline. -/
def formatMetricValues (metricName : String) (values : List MetricValue) : String :=
  String.intercalate "\n" (values.map (renderLine metricName)) ++ "\n"

/-- `formatMetricResult` of src/metrics.ts: a family with no points
renders to the empty string, otherwise header followed by the value
lines. -/
def formatMetricResult (result : MetricResult) : String :=
  if result.values.length = 0 then ""
  else formatMetricHeader result.definition ++
    formatMetricValues result.definition.name result.values

/-- Lookup in the `serviceMap` built by
`services.forEach((service) => serviceMap.set(service.id, service))`:
a later insert under the same id overwrites an earlier one, so the lookup
returns the last service carrying the key. -/
def serviceMapGet (services : List Service) (key : String) : Option Service :=
  (services.filter (fun svc => svc.id = key)).getLast?

/-- The body of
`metric.labels.forEach((label) => if (label.field && label.value !== undefined) labels[label.field] = String(label.value))`
for a single upstream label: copy it into the record when its `field` is
truthy (defined and non-empty) and its `value` is defined. -/
def applyLabel (acc : LabelRecord) (lab : MetricLabel) : LabelRecord :=
  match lab.field, lab.value with
  | some f, some v => if f = "" then acc else recordSet acc f v
  | _, _ => acc

/-- The `resourceKey` binding of the merge:
`metric.labels.find((x) => x.field == "resource")?.value || ""`. -/
def resourceFieldValue (ls : List MetricLabel) : String :=
  truthyOr ((ls.find? (fun x => x.field = some "resource")).bind (fun x => x.value)) ""

/-- The `serviceName` binding of the merge:
`serviceMap.get(resourceKey)?.name || "unknown"`. -/
def resolvedServiceName (services : List Service) (ls : List MetricLabel) : String :=
  truthyOr ((serviceMapGet services (resourceFieldValue ls)).map (fun svc => svc.name)) "unknown"

/-- The body of the `forEach` over flattened upstream responses in
`collectMetrics`: a series is skipped unless it has at least one label
and at least one sample; otherwise the last sample's value is taken, the
label record is seeded with `unit` and the resolved `service_name`, and
every upstream label with a truthy `field` and a defined `value` is
copied over it. -/
def mergePoint (services : List Service) (metric : MetricResponse) : Option MetricValue :=
  match metric.labels with
  | none => none
  | some ls =>
    if 0 < ls.length ∧ 0 < metric.values.length then
      let latestValue := ((metric.values.getLast?).map (fun p => p.value)).getD 0
      let labels := ls.foldl applyLabel
        [("unit", metric.unit), ("service_name", resolvedServiceName services ls)]
      some ⟨labels, latestValue⟩
    else none

/-- The `startTime || twoMinutesAgo` fallback of `collectMetrics`: the
optional explicit window start is used when present and non-empty,
otherwise the default two-minutes-ago timestamp. -/
def resolveStartTime (startTime : Option String) (twoMinutesAgo : String) : String :=
  truthyOr startTime twoMinutesAgo

/-- The batching, fan-out and merge stages of `collectMetrics`: chunk the
service ids, issue one upstream query per batch (`Promise.all`
propagates the first rejection), flatten, drop null entries
(`filter(Boolean)`), and merge each surviving series into a labeled
point. The query capability is a parameter; each batch call may reject
with an error string or resolve to a list of possibly-null series. -/
def collectMetricsValues (services : List Service) (apiToken : String)
    (batchSize : Nat)
    (metricFn : String → List String → String → Except String (List (Option MetricResponse)))
    (startTime : Option String) (twoMinutesAgo : String) :
    Except String (List MetricValue) :=
  match (chunkArray (services.map (fun service => service.id)) batchSize).mapM
      (fun batch => metricFn apiToken batch (resolveStartTime startTime twoMinutesAgo)) with
  | Except.error e => Except.error e
  | Except.ok allMetricsResults =>
      Except.ok ((allMetricsResults.flatten.filterMap id).filterMap (mergePoint services))

/-- Failure of one family collection. The source distinguishes the two
cases by provenance: `upstream` is a rejection of an awaited upstream
batch call propagated unchanged, `emptyResult` is the `Error` constructed
and thrown by `collectMetrics` itself when no point survives the merge. -/
inductive CollectError where
  | upstream (e : String)
  | emptyResult (msg : String)
deriving DecidableEq, Repr

/-- The `Empty metrics result ...` message thrown by `collectMetrics`:
the template literal renders the function name and the array of
guillemet-quoted services (a JS array renders comma-joined). -/
def emptyResultMessage (metricFnName : String) (services : List Service) : String :=
  "Empty metrics result " ++ metricFnName ++ " " ++
    String.intercalate "," (services.map (fun svc => "«" ++ svc.id ++ " " ++ svc.name ++ "»"))

/-- `collectMetrics` of src/metrics.ts: run the batched fan-out and
merge, throw an `emptyResult` error when no point survives, otherwise
suffix a copy of the base definition with the first merged point's
`unit` label and return the result. -/
def collectMetrics (services : List Service) (apiToken : String)
    (batchSize : Nat)
    (metricFn : String → List String → String → Except String (List (Option MetricResponse)))
    (metricFnName : String) (metricDefinition : MetricDefinition)
    (startTime : Option String) (twoMinutesAgo : String) :
    Except CollectError MetricResult :=
  match collectMetricsValues services apiToken batchSize metricFn startTime twoMinutesAgo with
  | Except.error e => Except.error (CollectError.upstream e)
  | Except.ok values =>
    if values.length = 0 then
      Except.error (CollectError.emptyResult (emptyResultMessage metricFnName services))
    else
      Except.ok
        { definition :=
            { metricDefinition with
                name := metricDefinition.name ++ "_" ++
                  jsString (recordGet ((values.headD ⟨[], 0⟩).labels) "unit") }
          values := values }

/-- `collectServiceCountMetric` of src/metrics.ts: a synchronous,
infallible single-point family counting the services. -/
def collectServiceCountMetric (services : List Service) : MetricResult :=
  { definition :=
      { name := "render_service_count"
        help := "Total number of services"
        type := "gauge" }
    values := [{ labels := [], value := (services.length : Int) }] }

/-- `collectInstanceCountMetrics` of src/metrics.ts. -/
def collectInstanceCountMetrics (services : List Service) (apiToken : String)
    (batchSize : Nat)
    (metricFn : String → List String → String → Except String (List (Option MetricResponse)))
    (twoMinutesAgo : String) : Except CollectError MetricResult :=
  collectMetrics services apiToken batchSize metricFn "instanceCount"
    { name := "render_service_instance_count"
      help := "Current number of instances for a Render service"
      type := "gauge" } none twoMinutesAgo

/-- `collectCPUMetrics` of src/metrics.ts. -/
def collectCPUMetrics (services : List Service) (apiToken : String)
    (batchSize : Nat)
    (metricFn : String → List String → String → Except String (List (Option MetricResponse)))
    (twoMinutesAgo : String) : Except CollectError MetricResult :=
  collectMetrics services apiToken batchSize metricFn "cpuUsage"
    { name := "render_service_cpu_usage"
      help := "CPU usage for a Render service"
      type := "gauge" } none twoMinutesAgo

/-- `collectMemoryMetrics` of src/metrics.ts. -/
def collectMemoryMetrics (services : List Service) (apiToken : String)
    (batchSize : Nat)
    (metricFn : String → List String → String → Except String (List (Option MetricResponse)))
    (twoMinutesAgo : String) : Except CollectError MetricResult :=
  collectMetrics services apiToken batchSize metricFn "memoryUsage"
    { name := "render_service_memory_usage"
      help := "Memory usage for a Render service in bytes"
      type := "gauge" } none twoMinutesAgo

/-- The identifier prefix test `svc.id.startsWith(prefixStr)`, embedded
on the character lists of the strings so that it is kernel-reducible;
it agrees with JS `String.prototype.startsWith` on every input. -/
def strStartsWith (s p : String) : Bool :=
  p.data.isPrefixOf s.data

/-- `collectBandwidth` of src/metrics.ts: only compute services
(identifier prefixed `srv-`) are relevant; an empty filtered set
short-circuits to an empty result without touching the query capability;
otherwise collection runs with the one-hour window start. -/
def collectBandwidth (services : List Service) (apiToken : String)
    (batchSize : Nat)
    (metricFn : String → List String → String → Except String (List (Option MetricResponse)))
    (hourAgo : String) (twoMinutesAgo : String) : Except CollectError MetricResult :=
  let definition : MetricDefinition :=
    { name := "render_service_bandwidth"
      help := "Bandwidth used by a render service"
      type := "gauge" }
  let relevantServices := services.filter (fun svc => strStartsWith svc.id "srv-")
  if relevantServices.length = 0 then
    Except.ok { definition := definition, values := [] }
  else
    collectMetrics relevantServices apiToken batchSize metricFn "bandwidth"
      definition (some hourAgo) twoMinutesAgo

/-- `collectActiveConnections` of src/metrics.ts: only cache and database
instances (identifier prefixed `red-` or `dpg-`) are relevant; an empty
filtered set short-circuits to an empty result without touching the
query capability. -/
def collectActiveConnections (services : List Service) (apiToken : String)
    (batchSize : Nat)
    (metricFn : String → List String → String → Except String (List (Option MetricResponse)))
    (twoMinutesAgo : String) : Except CollectError MetricResult :=
  let definition : MetricDefinition :=
    { name := "render_service_active_connections"
      help := "Active connections for redis or postgres servers"
      type := "gauge" }
  let relevantServices :=
    services.filter (fun svc => strStartsWith svc.id "red-" || strStartsWith svc.id "dpg-")
  if relevantServices.length = 0 then
    Except.ok { definition := definition, values := [] }
  else
    collectMetrics relevantServices apiToken batchSize metricFn "activeConnections"
      definition none twoMinutesAgo

/-- The body-assembly expression of the metrics handler:
`metricResults.filter(x => x != null).map(formatMetricResult).filter(o => o.length > 0).join("\n")`. -/
def buildMetricsOutput (metricResults : List (Option MetricResult)) : String :=
  String.intercalate "\n"
    (((metricResults.filterMap id).map formatMetricResult).filter
      (fun output => 0 < output.length))

/-- The HTTP response produced by one invocation of the metrics handler:
status code, the explicitly set content-type header if any, and the
response body. -/
structure HandlerResponse where
  status : Nat
  contentType : Option String
  body : String
deriving DecidableEq, Repr

/-- The handler returned by `createMetricsHandler` of src/metrics.ts,
parameterized by the settled outcomes of the initial `getServices` fetch
and of the five fallible family collectors (each is wrapped in
`.catch(() => null)` in the source, embedded by `Except.toOption`;
`collectServiceCountMetric` is synchronous and cannot fail, so it enters
the result list unwrapped). A rejection of the initial fetch is caught by
the surrounding try/catch and answered with a plain 500. -/
def metricsHandler (getServicesResult : Except String (List Service))
    (instanceCountResult cpuResult memoryResult bandwidthResult
      activeConnectionsResult : Except CollectError MetricResult) : HandlerResponse :=
  match getServicesResult with
  | Except.error _ => { status := 500, contentType := none, body := "Error fetching metrics" }
  | Except.ok services =>
    let metricResults : List (Option MetricResult) :=
      [instanceCountResult.toOption,
       some (collectServiceCountMetric services),
       cpuResult.toOption,
       memoryResult.toOption,
       bandwidthResult.toOption,
       activeConnectionsResult.toOption]
    if (metricResults.filter (fun x => x.isSome)).length = 0 then
      { status := 500, contentType := none
        body := "Error fetching metrics: all collectors failed" }
    else
      { status := 200, contentType := some "text/plain"
        body := buildMetricsOutput metricResults }

/-- A Render Redis instance; only the fields relevant to the cache claims
are embedded. -/
structure Redis where
  id : String
  name : String
deriving DecidableEq, Repr

/-- A Render Postgres instance; only the fields relevant to the cache
claims are embedded. -/
structure Postgres where
  id : String
  name : String
deriving DecidableEq, Repr

/-- The mutable state of a `ResourceCache` instance together with its
read-only `maxAge` configuration. Timestamps are epoch milliseconds. -/
structure ResourceCacheState where
  services : List Service
  redises : List Redis
  postgreses : List Postgres
  lastRefreshed : Option Int
  maxAge : Int
deriving DecidableEq, Repr

/-- `ResourceCache.isStale`: stale when never refreshed or when the age
exceeds `maxAge`. -/
def isStale (st : ResourceCacheState) (now : Int) : Bool :=
  match st.lastRefreshed with
  | none => true
  | some t => decide (st.maxAge < now - t)

/-- `ResourceCache.refreshResources`, parameterized by the joined outcome
of the three parallel list fetches (`Promise.all` rejects the join when
any fetch rejects). On success all three lists and the timestamp are
replaced as one unit; on failure the `catch` logs and rethrows, leaving
the state untouched; the second component is the propagated error. -/
def refreshResources (st : ResourceCacheState)
    (fetchResult : Except String (List Service × List Redis × List Postgres))
    (now : Int) : ResourceCacheState × Option String :=
  match fetchResult with
  | Except.ok (newServices, newRedises, newPostgreses) =>
    ({ st with
        services := newServices
        redises := newRedises
        postgreses := newPostgreses
        lastRefreshed := some now }, none)
  | Except.error e => (st, some e)

/-- `ResourceCache.getResources`: always returns the current snapshot
immediately; the boolean records whether a background refresh was
scheduled (`setTimeout(() => this.refreshResources(), 0)` on staleness),
whose later outcome is not awaited by the reader. -/
def getResources (st : ResourceCacheState) (now : Int) :
    (List Service × List Redis × List Postgres) × Bool :=
  ((st.services, st.redises, st.postgreses), isStale st now)

/-- A store of `MetricDefinition` objects addressed by reference, used to
make JS object identity and in-place mutation explicit: TS passes
`metricDefinition` by reference, `\x7b ...metricDefinition \x7d` allocates
a fresh object with the same fields, and `updatedDefinition.name = ...`
mutates the object behind a reference. -/
abbrev DefStore := List MetricDefinition

/-- Read the object behind a reference. -/
def storeRead (h : DefStore) (r : Nat) : MetricDefinition :=
  h.getD r { name := "", help := "", type := "" }

/-- Overwrite the object behind a reference. -/
def storeWrite (h : DefStore) (r : Nat) (d : MetricDefinition) : DefStore :=
  h.set r d

/-- Allocate a fresh object, returning the extended store and the new
reference. -/
def storeAlloc (h : DefStore) (d : MetricDefinition) : DefStore × Nat :=
  (h ++ [d], h.length)

/-- `collectMetrics` with the base definition held behind a reference in
an explicit object store, making the final steps
`const updatedDefinition = \x7b ...metricDefinition \x7d` (allocate a
copy) and `updatedDefinition.name = ...` (mutate the copy in place)
observable. Returns the store after the call together with the outcome;
a successful outcome carries the reference of the returned definition. -/
def collectMetricsRef (h : DefStore) (defRef : Nat) (services : List Service)
    (apiToken : String) (batchSize : Nat)
    (metricFn : String → List String → String → Except String (List (Option MetricResponse)))
    (metricFnName : String) (startTime : Option String) (twoMinutesAgo : String) :
    DefStore × Except CollectError (Nat × List MetricValue) :=
  match collectMetricsValues services apiToken batchSize metricFn startTime twoMinutesAgo with
  | Except.error e => (h, Except.error (CollectError.upstream e))
  | Except.ok values =>
    if values.length = 0 then
      (h, Except.error (CollectError.emptyResult (emptyResultMessage metricFnName services)))
    else
      let allocated := storeAlloc h (storeRead h defRef)
      let h1 := allocated.1
      let updRef := allocated.2
      let h2 := storeWrite h1 updRef
        { storeRead h1 updRef with
            name := (storeRead h1 updRef).name ++ "_" ++
              jsString (recordGet ((values.headD ⟨[], 0⟩).labels) "unit") }
      (h2, Except.ok (updRef, values))

/-! ## Batching lemmas -/

/-- Concatenating the chunks restores the input. -/
theorem chunkArray_flatten {α : Type} (array : List α) (chunkSize : Nat) (h : chunkSize ≠ 0) :
    (chunkArray array chunkSize).flatten = array := by
  induction array, chunkSize using chunkArray.induct with
  | case1 array chunkSize h1 =>
    rw [chunkArray]
    simp_all [List.isEmpty_iff]
  | case2 array h1 => exact absurd rfl h
  | case3 array chunkSize h1 h2 ih =>
    rw [chunkArray]
    simp only [if_neg h1, if_neg h2, List.flatten_cons]
    rw [ih h, List.take_append_drop]

/-- The number of chunks is the length of the input divided by the chunk
size, rounded up. -/
theorem chunkArray_length {α : Type} (array : List α) (chunkSize : Nat) (h : chunkSize ≠ 0) :
    (chunkArray array chunkSize).length = (array.length + chunkSize - 1) / chunkSize := by
  induction array, chunkSize using chunkArray.induct with
  | case1 array chunkSize h1 =>
    simp only [List.isEmpty_iff] at h1
    subst h1
    have hnil : chunkArray ([] : List α) chunkSize = [] := by rw [chunkArray]; simp
    rw [hnil]
    simp only [List.length_nil]
    have hpos := Nat.pos_of_ne_zero h
    have e : (0 + chunkSize - 1) / chunkSize = 0 := Nat.div_eq_of_lt (by omega)
    omega
  | case2 array h1 => exact absurd rfl h
  | case3 array chunkSize h1 h2 ih =>
    rw [chunkArray]
    simp only [if_neg h1, if_neg h2, List.length_cons]
    rw [ih h, List.length_drop]
    have hpos : 0 < chunkSize := Nat.pos_of_ne_zero h2
    have hlen : 0 < array.length := by
      simp only [List.isEmpty_iff] at h1
      exact List.length_pos.mpr h1
    rcases le_or_lt array.length chunkSize with hle | hlt
    · have e1 : array.length - chunkSize = 0 := by omega
      rw [e1]
      have e2 : (0 + chunkSize - 1) / chunkSize = 0 := by
        apply Nat.div_eq_of_lt; omega
      rw [e2]
      have e3 : array.length + chunkSize - 1 = (array.length - 1) + chunkSize := by omega
      rw [e3, Nat.add_div_right _ hpos]
      have e4 : (array.length - 1) / chunkSize = 0 := by
        apply Nat.div_eq_of_lt; omega
      omega
    · have e3 : array.length - chunkSize + chunkSize - 1 = (array.length - chunkSize - 1) + chunkSize := by omega
      have e4 : array.length + chunkSize - 1 = ((array.length - chunkSize - 1) + chunkSize) + chunkSize := by omega
      rw [e3, e4, Nat.add_div_right _ hpos, Nat.add_div_right _ hpos, Nat.add_div_right _ hpos]

/-- Every chunk except possibly the last has exactly the chunk size. -/
theorem chunkArray_dropLast {α : Type} (array : List α) (chunkSize : Nat) (h : chunkSize ≠ 0) :
    ∀ c ∈ (chunkArray array chunkSize).dropLast, c.length = chunkSize := by
  induction array, chunkSize using chunkArray.induct with
  | case1 array chunkSize h1 =>
    rw [chunkArray]; simp [h1]
  | case2 array h1 => exact absurd rfl h
  | case3 array chunkSize h1 h2 ih =>
    rw [chunkArray]
    simp only [if_neg h1, if_neg h2]
    cases hrest : chunkArray (array.drop chunkSize) chunkSize with
    | nil => simp
    | cons r rs =>
      intro c hc
      rw [List.dropLast_cons₂] at hc
      rcases List.mem_cons.mp hc with rfl | hc2
      · have hne : array.drop chunkSize ≠ [] := by
          intro hnil
          rw [chunkArray, hnil] at hrest
          simp at hrest
        have : chunkSize < array.length := by
          by_contra hcon
          push_neg at hcon
          exact hne (List.drop_eq_nil_of_le hcon)
        simp [List.length_take]
        omega
      · rw [← hrest] at hc2
        exact ih h c hc2

/-- C2: for every input array and every chunk size of at least one,
`chunkArray` returns exactly the rounded-up quotient many chunks (zero
for an empty input), every chunk except possibly the last has exactly
the chunk size, and concatenating the chunks in order restores the input
array, so the chunks are ordered, contiguous and non-overlapping. -/
theorem chunkArray_partition {α : Type} (array : List α) (chunkSize : Nat)
    (h : 1 ≤ chunkSize) :
    (chunkArray array chunkSize).length = (array.length + chunkSize - 1) / chunkSize
    ∧ (∀ c ∈ (chunkArray array chunkSize).dropLast, c.length = chunkSize)
    ∧ (chunkArray array chunkSize).flatten = array :=
  ⟨chunkArray_length array chunkSize (by omega),
   chunkArray_dropLast array chunkSize (by omega),
   chunkArray_flatten array chunkSize (by omega)⟩

/-- Witness for C2 at a concrete input: five identifiers in chunks of
two give three chunks. -/
theorem chunkArray_partition_witness :
    1 ≤ 2
    ∧ ((chunkArray ["a", "b", "c", "d", "e"] 2).length =
        ((["a", "b", "c", "d", "e"] : List String).length + 2 - 1) / 2
      ∧ (∀ c ∈ (chunkArray ["a", "b", "c", "d", "e"] 2).dropLast, c.length = 2)
      ∧ (chunkArray ["a", "b", "c", "d", "e"] 2).flatten = ["a", "b", "c", "d", "e"]) :=
  ⟨by decide, chunkArray_partition ["a", "b", "c", "d", "e"] 2 (by decide)⟩

/-! ## Formatting lemmas -/

/-- The sorted label list is a permutation of the label record. -/
theorem sortLabels_perm (r : LabelRecord) : (sortLabels r).Perm r :=
  List.mergeSort_perm r _

/-- The sorted label list is sorted by key in the lexicographic order. -/
theorem sortLabels_sorted (r : LabelRecord) :
    (sortLabels r).Pairwise (fun p q => p.1 ≤ q.1) := by
  have h := @List.sorted_mergeSort (String × String)
    (fun p q => decide (p.1 ≤ q.1))
    (fun a b c hab hbc => by
      simp only [decide_eq_true_eq] at *
      exact le_trans hab hbc)
    (fun a b => by
      simp only [Bool.or_eq_true, decide_eq_true_eq]
      exact le_total a.1 b.1)
    r
  exact h.imp (fun hb => of_decide_eq_true hb)

/-- Two label records with the same pairs and duplicate-free keys sort to
the same list, whatever their insertion orders. -/
theorem sortLabels_eq_of_perm (r₁ r₂ : LabelRecord) (hp : r₁.Perm r₂)
    (hnd : (r₁.map Prod.fst).Nodup) : sortLabels r₁ = sortLabels r₂ := by
  haveI : IsAntisymm (String × String) (fun p q => p.1 < q.1) :=
    ⟨fun a b h₁ h₂ => absurd h₂ (not_lt.mpr (le_of_lt h₁))⟩
  have hmap₁ : ((sortLabels r₁).map Prod.fst).Nodup :=
    (((sortLabels_perm r₁).map Prod.fst).nodup_iff).mpr hnd
  have hmap₂ : ((sortLabels r₂).map Prod.fst).Nodup := by
    apply (((sortLabels_perm r₂).map Prod.fst).nodup_iff).mpr
    exact ((hp.map Prod.fst).nodup_iff).mp hnd
  have hne₁ : (sortLabels r₁).Pairwise (fun p q => p.1 ≠ q.1) :=
    List.pairwise_map.mp hmap₁
  have hne₂ : (sortLabels r₂).Pairwise (fun p q => p.1 ≠ q.1) :=
    List.pairwise_map.mp hmap₂
  have hs₁ : (sortLabels r₁).Pairwise (fun p q => p.1 < q.1) :=
    ((sortLabels_sorted r₁).and hne₁).imp (fun h => lt_of_le_of_ne h.1 h.2)
  have hs₂ : (sortLabels r₂).Pairwise (fun p q => p.1 < q.1) :=
    ((sortLabels_sorted r₂).and hne₂).imp (fun h => lt_of_le_of_ne h.1 h.2)
  exact List.eq_of_perm_of_sorted
    (((sortLabels_perm r₁).trans hp).trans (sortLabels_perm r₂).symm) hs₁ hs₂

/-- C3: every line emitted by `formatMetricValues` renders the point's
labels sorted lexicographically by key, each as a `key="value"` pair
inside braces, followed by the numeric value; and the emitted label
substring is byte-identical for any two label mappings holding the same
key/value pairs in different insertion orders. -/
theorem formatMetricValues_sorted_deterministic :
    (∀ metricName values, formatMetricValues metricName values =
      String.intercalate "\n" (values.map (renderLine metricName)) ++ "\n")
    ∧ (∀ metricName v, renderLine metricName v =
        metricName ++ "\x7b" ++
          String.intercalate ", "
            ((sortLabels v.labels).map (fun p => p.1 ++ "=\"" ++ p.2 ++ "\"")) ++
          "\x7d " ++ toString v.value)
    ∧ (∀ r : LabelRecord,
        (sortLabels r).Perm r ∧ (sortLabels r).Pairwise (fun p q => p.1 ≤ q.1))
    ∧ (∀ metricName value r₁ r₂, r₁.Perm r₂ → (r₁.map Prod.fst).Nodup →
        renderLine metricName ⟨r₁, value⟩ = renderLine metricName ⟨r₂, value⟩) := by
  refine ⟨fun _ _ => rfl, fun _ _ => rfl,
    fun r => ⟨sortLabels_perm r, sortLabels_sorted r⟩,
    fun metricName value r₁ r₂ hp hnd => ?_⟩
  simp only [renderLine]
  rw [sortLabels_eq_of_perm r₁ r₂ hp hnd]

/-- Witness for C3 at the concrete input from the specification: the two
insertion orders of the labels a=1, b=2 render byte-identically. -/
theorem formatMetricValues_sorted_deterministic_witness :
    ([("b", "2"), ("a", "1")] : LabelRecord).Perm [("a", "1"), ("b", "2")]
    ∧ (([("b", "2"), ("a", "1")] : LabelRecord).map Prod.fst).Nodup
    ∧ renderLine "m" ⟨[("b", "2"), ("a", "1")], 5⟩ =
        renderLine "m" ⟨[("a", "1"), ("b", "2")], 5⟩ :=
  ⟨by decide, by decide,
   formatMetricValues_sorted_deterministic.2.2.2 "m" 5
     [("b", "2"), ("a", "1")] [("a", "1"), ("b", "2")] (by decide) (by decide)⟩


/-! ## Record lemmas -/

/-- Replacing the pairs keyed `k` in a record and then looking up `k`
finds the replacement exactly when the key was present. -/
theorem find?_keyReplace_self (r : LabelRecord) (k v : String) :
    (r.map (fun p => if p.1 = k then (k, v) else p)).find? (fun p => decide (p.1 = k)) =
      if r.any (fun p => decide (p.1 = k)) then some (k, v) else none := by
  induction r with
  | nil => rfl
  | cons p r ih =>
    simp only [List.map_cons, List.any_cons]
    by_cases hp : p.1 = k
    · simp [List.find?_cons, hp]
    · have hd : (decide (p.1 = k)) = false := by simp [hp]
      simp only [if_neg hp, List.find?_cons, hd, Bool.false_or, ih]

/-- Replacing the pairs keyed `k` in a record does not affect a lookup of
a different key. -/
theorem find?_keyReplace_ne (r : LabelRecord) (k v k' : String) (hne : k' ≠ k) :
    (r.map (fun p => if p.1 = k then (k, v) else p)).find? (fun p => decide (p.1 = k')) =
      r.find? (fun p => decide (p.1 = k')) := by
  induction r with
  | nil => rfl
  | cons p r ih =>
    simp only [List.map_cons]
    by_cases hp : p.1 = k
    · have h1 : (decide ((k, v).1 = k')) = false := by
        simp only [decide_eq_false_iff_not]
        exact fun hc => hne hc.symm
      have h2 : (decide (p.1 = k')) = false := by
        simp only [decide_eq_false_iff_not]
        exact fun hc => hne (by rw [← hc, hp])
      simp only [if_pos hp, List.find?_cons, h1, h2, ih]
    · simp only [if_neg hp, List.find?_cons, ih]

/-- Reading the key just assigned yields the assigned value. -/
theorem recordGet_recordSet_self (r : LabelRecord) (k v : String) :
    recordGet (recordSet r k v) k = some v := by
  simp only [recordGet, recordSet]
  cases h : r.any (fun p => decide (p.1 = k)) with
  | true =>
    rw [if_pos rfl, find?_keyReplace_self, h, if_pos rfl]
    rfl
  | false =>
    rw [if_neg (by simp), List.find?_append]
    have hnone : r.find? (fun p => decide (p.1 = k)) = none := by
      rw [List.find?_eq_none]
      intro x hx hpx
      have : r.any (fun p => decide (p.1 = k)) = true := List.any_eq_true.mpr ⟨x, hx, hpx⟩
      rw [h] at this
      exact Bool.false_ne_true this
    rw [hnone]
    simp [List.find?_cons]

/-- Reading any other key is unaffected by an assignment. -/
theorem recordGet_recordSet_ne (r : LabelRecord) (k v k' : String) (hne : k' ≠ k) :
    recordGet (recordSet r k v) k' = recordGet r k' := by
  simp only [recordGet, recordSet]
  cases h : r.any (fun p => decide (p.1 = k)) with
  | true =>
    rw [if_pos rfl, find?_keyReplace_ne r k v k' hne]
  | false =>
    rw [if_neg (by simp), List.find?_append]
    have hsingle : ([(k, v)] : LabelRecord).find? (fun p => decide (p.1 = k')) = none := by
      have : (decide ((k, v).1 = k')) = false := by
        simp only [decide_eq_false_iff_not]
        exact fun hc => hne hc.symm
      simp [List.find?_cons, this]
    rw [hsingle]
    cases hr : r.find? (fun p => decide (p.1 = k')) with
    | none => simp
    | some p => simp

/-- Specification-side characterization used to state the label-merge
claims: the value the upstream label `lab` writes under key `k` when
copied by `applyLabel`, if any. -/
def labelWriteTo (k : String) (lab : MetricLabel) : Option String :=
  match lab.field, lab.value with
  | some f, some v => if f = "" then none else if f = k then some v else none
  | _, _ => none

/-- The last element of a cons is the last of the tail, or the head for a
singleton. -/
theorem getLast?_cons_or {α : Type} (a : α) (l : List α) :
    (a :: l).getLast? = l.getLast?.or (some a) := by
  rw [List.getLast?_cons]
  cases h : l.getLast? with
  | none => simp [h]
  | some b => simp [h]

/-- Folding the upstream labels over a seed record yields, under each
key, the value of the last upstream label writing that key, or the seed
entry when no upstream label writes it. -/
theorem foldl_applyLabel_get (ls : List MetricLabel) (acc : LabelRecord) (k : String) :
    recordGet (ls.foldl applyLabel acc) k =
      ((ls.filterMap (labelWriteTo k)).getLast?).or (recordGet acc k) := by
  induction ls generalizing acc with
  | nil => simp
  | cons lab ls ih =>
    rw [List.foldl_cons, List.filterMap_cons]
    cases hf : lab.field with
    | none =>
      have ha : applyLabel acc lab = acc := by simp [applyLabel, hf]
      have hw : labelWriteTo k lab = none := by simp [labelWriteTo, hf]
      rw [ih, ha, hw]
    | some f =>
      cases hv : lab.value with
      | none =>
        have ha : applyLabel acc lab = acc := by simp [applyLabel, hf, hv]
        have hw : labelWriteTo k lab = none := by simp [labelWriteTo, hf, hv]
        rw [ih, ha, hw]
      | some v =>
        by_cases hf0 : f = ""
        · have ha : applyLabel acc lab = acc := by simp [applyLabel, hf, hv, hf0]
          have hw : labelWriteTo k lab = none := by simp [labelWriteTo, hf, hv, hf0]
          rw [ih, ha, hw]
        · by_cases hfk : f = k
          · subst hfk
            have ha : applyLabel acc lab = recordSet acc f v := by
              simp [applyLabel, hf, hv, hf0]
            have hw : labelWriteTo f lab = some v := by
              simp [labelWriteTo, hf, hv, hf0]
            rw [ih, ha, hw, recordGet_recordSet_self, getLast?_cons_or, Option.or_assoc]
            simp [Option.or]
          · have ha : applyLabel acc lab = recordSet acc f v := by
              simp [applyLabel, hf, hv, hf0]
            have hw : labelWriteTo k lab = none := by
              simp [labelWriteTo, hf, hv, hf0, hfk]
            rw [ih, ha, hw, recordGet_recordSet_ne acc f v k (fun hc => hfk hc.symm)]

/-! ## Merge lemmas -/

/-- Whether a series survives the merge depends only on the series itself
(at least one label, at least one sample), not on the resource list: an
unmatched resource lookup never drops the point. -/
theorem mergePoint_isSome_iff (services : List Service) (metric : MetricResponse) :
    (mergePoint services metric).isSome ↔
      (∃ ls, metric.labels = some ls ∧ 0 < ls.length) ∧ 0 < metric.values.length := by
  cases hl : metric.labels with
  | none => simp [mergePoint, hl]
  | some ls =>
    simp only [mergePoint, hl]
    by_cases hc : 0 < ls.length ∧ 0 < metric.values.length
    · simp only [if_pos hc, Option.isSome_some, true_iff]
      exact ⟨⟨ls, rfl, hc.1⟩, hc.2⟩
    · rw [if_neg hc]
      simp only [Option.isSome_none]
      constructor
      · intro hfalse
        exact absurd hfalse (by simp)
      · rintro ⟨⟨ls2, he, hlen⟩, hv⟩
        cases he
        exact absurd ⟨hlen, hv⟩ hc

/-- Shape of a merged point: the label record is the upstream labels
folded over the seed record, the value is the last sample's. -/
theorem mergePoint_eq (services : List Service) (metric : MetricResponse)
    (ls : List MetricLabel) (mv : MetricValue) (hl : metric.labels = some ls)
    (h : mergePoint services metric = some mv) :
    mv.labels = ls.foldl applyLabel
      [("unit", metric.unit), ("service_name", resolvedServiceName services ls)]
    ∧ mv.value = ((metric.values.getLast?).map (fun p => p.value)).getD 0 := by
  simp only [mergePoint, hl] at h
  by_cases hc : 0 < ls.length ∧ 0 < metric.values.length
  · rw [if_pos hc] at h
    cases h
    exact ⟨rfl, rfl⟩
  · rw [if_neg hc] at h
    exact absurd h (by simp)

/-- Reading the seed record at its two keys. -/
theorem recordGet_seed (u s : String) :
    recordGet [("unit", u), ("service_name", s)] "unit" = some u
    ∧ recordGet [("unit", u), ("service_name", s)] "service_name" = some s :=
  ⟨rfl, rfl⟩

/-- C6 counterexample: a series whose `resource` label matches a known
resource with an EMPTY display name still gets `service_name` set to
`unknown` (the source applies JS truthiness, `?.name || "unknown"`), so
the produced label does not equal the matching resource's display name
as the claim states. -/
theorem mergePoint_service_name_counterexample :
    serviceMapGet [⟨"srv-1", ""⟩] "srv-1" = some ⟨"srv-1", ""⟩
    ∧ (mergePoint [⟨"srv-1", ""⟩]
        ⟨"percent", some [⟨some "resource", some "srv-1"⟩], [⟨"t", 5⟩]⟩).map
        (fun mv => recordGet mv.labels "service_name") = some (some "unknown")
    ∧ ("unknown" : String) ≠ "" := by
  refine ⟨rfl, rfl, by decide⟩

/-- C6 (amended): a series survives the merge exactly when it has at
least one label and at least one sample, independently of the resource
lookup (an unmatched or empty-named resource never drops the point); in
the produced label record, every key written by an upstream label with a
truthy (defined and non-empty) field and a defined value holds the last
such upstream value (upstream wins, also over `unit` and
`service_name`); and when no upstream label writes `service_name`, the
point's `service_name` is the display name of the resource whose id
equals the series' resource-field label value when that lookup hits and
the name is non-empty, and the string `unknown` when the lookup misses
or the matched display name is empty. -/
theorem mergePoint_label_resolution :
    (∀ services metric,
        (mergePoint services metric).isSome ↔
          (∃ ls, metric.labels = some ls ∧ 0 < ls.length) ∧ 0 < metric.values.length)
    ∧ (∀ services metric ls mv k v, metric.labels = some ls →
        mergePoint services metric = some mv →
        (ls.filterMap (labelWriteTo k)).getLast? = some v →
        recordGet mv.labels k = some v)
    ∧ (∀ services metric ls mv, metric.labels = some ls →
        mergePoint services metric = some mv →
        (ls.filterMap (labelWriteTo "service_name")).getLast? = none →
        recordGet mv.labels "service_name" = some (resolvedServiceName services ls)
        ∧ ((∃ svc, serviceMapGet services (resourceFieldValue ls) = some svc
              ∧ svc.name ≠ "" ∧ resolvedServiceName services ls = svc.name)
          ∨ (resolvedServiceName services ls = "unknown"
              ∧ (serviceMapGet services (resourceFieldValue ls) = none
                ∨ ∃ svc, serviceMapGet services (resourceFieldValue ls) = some svc
                    ∧ svc.name = "")))) := by
  refine ⟨mergePoint_isSome_iff, ?_, ?_⟩
  · intro services metric ls mv k v hl h hlast
    rw [(mergePoint_eq services metric ls mv hl h).1, foldl_applyLabel_get, hlast]
    rfl
  · intro services metric ls mv hl h hlast
    constructor
    · rw [(mergePoint_eq services metric ls mv hl h).1, foldl_applyLabel_get, hlast,
        (recordGet_seed metric.unit (resolvedServiceName services ls)).2]
      rfl
    · unfold resolvedServiceName truthyOr
      cases hsvc : serviceMapGet services (resourceFieldValue ls) with
      | none => exact Or.inr ⟨rfl, Or.inl rfl⟩
      | some svc =>
        by_cases hname : svc.name = ""
        · refine Or.inr ⟨?_, Or.inr ⟨svc, rfl, hname⟩⟩
          simp [hname]
        · refine Or.inl ⟨svc, rfl, hname, ?_⟩
          simp [hname]

/-- Witness for C6 at concrete inputs: an upstream `service_name` label
overrides the resolved one, and without such a label the resolved
display name is used. -/
theorem mergePoint_label_resolution_witness :
    recordGet ([("unit", "percent"), ("service_name", "override")] : LabelRecord)
        "service_name" = some "override"
    ∧ (recordGet ([("unit", "percent"), ("service_name", "web"), ("resource", "srv-2")] :
          LabelRecord) "service_name" =
        some (resolvedServiceName [⟨"srv-2", "web"⟩] [⟨some "resource", some "srv-2"⟩])
      ∧ ((∃ svc, serviceMapGet [⟨"srv-2", "web"⟩]
              (resourceFieldValue [⟨some "resource", some "srv-2"⟩]) = some svc
            ∧ svc.name ≠ ""
            ∧ resolvedServiceName [⟨"srv-2", "web"⟩] [⟨some "resource", some "srv-2"⟩] = svc.name)
        ∨ (resolvedServiceName [⟨"srv-2", "web"⟩] [⟨some "resource", some "srv-2"⟩] = "unknown"
            ∧ (serviceMapGet [⟨"srv-2", "web"⟩]
                  (resourceFieldValue [⟨some "resource", some "srv-2"⟩]) = none
              ∨ ∃ svc, serviceMapGet [⟨"srv-2", "web"⟩]
                    (resourceFieldValue [⟨some "resource", some "srv-2"⟩]) = some svc
                  ∧ svc.name = "")))) :=
  ⟨mergePoint_label_resolution.2.1 [⟨"srv-2", "web"⟩]
      ⟨"percent", some [⟨some "service_name", some "override"⟩], [⟨"t", 7⟩]⟩
      [⟨some "service_name", some "override"⟩]
      ⟨[("unit", "percent"), ("service_name", "override")], 7⟩
      "service_name" "override" rfl (by decide) (by decide),
   mergePoint_label_resolution.2.2 [⟨"srv-2", "web"⟩]
      ⟨"percent", some [⟨some "resource", some "srv-2"⟩], [⟨"t", 7⟩]⟩
      [⟨some "resource", some "srv-2"⟩]
      ⟨[("unit", "percent"), ("service_name", "web"), ("resource", "srv-2")], 7⟩
      rfl (by decide) (by decide)⟩

/-! ## Collector lemmas -/

/-- Unfolding of the do-block of `collectMetricsValues`. -/
theorem collectMetricsValues_eq (services : List Service) (apiToken : String)
    (batchSize : Nat)
    (metricFn : String → List String → String → Except String (List (Option MetricResponse)))
    (startTime : Option String) (twoMinutesAgo : String) :
    collectMetricsValues services apiToken batchSize metricFn startTime twoMinutesAgo =
      match (chunkArray (services.map (fun service => service.id)) batchSize).mapM
          (fun batch => metricFn apiToken batch (resolveStartTime startTime twoMinutesAgo)) with
      | Except.error e => Except.error e
      | Except.ok rss =>
          Except.ok ((rss.flatten.filterMap id).filterMap (mergePoint services)) := rfl

/-- Every point in a successful merge result came out of `mergePoint`. -/
theorem collectMetricsValues_mem (services : List Service) (apiToken : String)
    (batchSize : Nat)
    (metricFn : String → List String → String → Except String (List (Option MetricResponse)))
    (startTime : Option String) (twoMinutesAgo : String) (values : List MetricValue)
    (h : collectMetricsValues services apiToken batchSize metricFn startTime twoMinutesAgo =
      Except.ok values) :
    ∀ v ∈ values, ∃ metric, mergePoint services metric = some v := by
  rw [collectMetricsValues_eq] at h
  cases hm : (chunkArray (services.map (fun service => service.id)) batchSize).mapM
      (fun batch => metricFn apiToken batch (resolveStartTime startTime twoMinutesAgo)) with
  | error e => rw [hm] at h; cases h
  | ok rss =>
    rw [hm] at h
    cases h
    intro v hv
    obtain ⟨metric, _, hmv⟩ := List.mem_filterMap.mp hv
    exact ⟨metric, hmv⟩

/-- Elimination of a successful `collectMetrics` call: the merged points
are non-empty, returned unchanged, and the returned definition is the
base definition with only the name changed by the unit suffix of the
first merged point. -/
theorem collectMetrics_ok_elim (services : List Service) (apiToken : String)
    (batchSize : Nat)
    (metricFn : String → List String → String → Except String (List (Option MetricResponse)))
    (metricFnName : String) (metricDefinition : MetricDefinition)
    (startTime : Option String) (twoMinutesAgo : String) (r : MetricResult)
    (h : collectMetrics services apiToken batchSize metricFn metricFnName metricDefinition
      startTime twoMinutesAgo = Except.ok r) :
    ∃ values, collectMetricsValues services apiToken batchSize metricFn startTime
        twoMinutesAgo = Except.ok values
      ∧ values ≠ []
      ∧ r.values = values
      ∧ r.definition =
          { metricDefinition with
              name := metricDefinition.name ++ "_" ++
                jsString (recordGet ((values.headD ⟨[], 0⟩).labels) "unit") } := by
  unfold collectMetrics at h
  cases hv : collectMetricsValues services apiToken batchSize metricFn startTime
      twoMinutesAgo with
  | error e => rw [hv] at h; cases h
  | ok values =>
    rw [hv] at h
    dsimp only at h
    by_cases hlen : values.length = 0
    · rw [if_pos hlen] at h; cases h
    · rw [if_neg hlen] at h
      cases h
      exact ⟨values, rfl, fun hc => hlen (by rw [hc]; rfl), rfl, rfl⟩

/-- A merged point always carries a `unit` label: the seed record sets it
and upstream labels can only overwrite it. -/
theorem mergePoint_unit_isSome (services : List Service) (metric : MetricResponse)
    (mv : MetricValue) (h : mergePoint services metric = some mv) :
    ∃ u, recordGet mv.labels "unit" = some u := by
  cases hl : metric.labels with
  | none => rw [mergePoint, hl] at h; cases h
  | some ls =>
    rw [(mergePoint_eq services metric ls mv hl h).1, foldl_applyLabel_get]
    cases hlast : (ls.filterMap (labelWriteTo "unit")).getLast? with
    | some w => exact ⟨w, rfl⟩
    | none =>
      refine ⟨metric.unit, ?_⟩
      rw [(recordGet_seed metric.unit (resolvedServiceName services ls)).1]
      rfl

/-- C4: whenever `collectMetrics` succeeds, the returned definition keeps
the base help and type, and its name is the base name, an underscore,
and the `unit` label of the first merged point (which is always
present). -/
theorem collectMetrics_unit_suffix (services : List Service) (apiToken : String)
    (batchSize : Nat)
    (metricFn : String → List String → String → Except String (List (Option MetricResponse)))
    (metricFnName : String) (metricDefinition : MetricDefinition)
    (startTime : Option String) (twoMinutesAgo : String) (r : MetricResult)
    (h : collectMetrics services apiToken batchSize metricFn metricFnName metricDefinition
      startTime twoMinutesAgo = Except.ok r) :
    ∃ first rest u, r.values = first :: rest
      ∧ recordGet first.labels "unit" = some u
      ∧ r.definition.name = metricDefinition.name ++ "_" ++ u
      ∧ r.definition.help = metricDefinition.help
      ∧ r.definition.type = metricDefinition.type := by
  obtain ⟨values, hv, hne, hrv, hrd⟩ := collectMetrics_ok_elim services apiToken batchSize
    metricFn metricFnName metricDefinition startTime twoMinutesAgo r h
  cases values with
  | nil => exact absurd rfl hne
  | cons first rest =>
    obtain ⟨metric, hmp⟩ := collectMetricsValues_mem services apiToken batchSize metricFn
      startTime twoMinutesAgo (first :: rest) hv first (by simp)
    obtain ⟨u, hu⟩ := mergePoint_unit_isSome services metric first hmp
    refine ⟨first, rest, u, by rw [hrv], hu, ?_, by rw [hrd], by rw [hrd]⟩
    rw [hrd]
    show metricDefinition.name ++ "_" ++
      jsString (recordGet ((first :: rest).headD ⟨[], 0⟩).labels "unit") =
        metricDefinition.name ++ "_" ++ u
    rw [show ((first :: rest).headD ⟨[], 0⟩) = first from rfl, hu]
    rfl

/-- Evaluation helper: one service, one batch, one series with unit
`percent`; the cpu collection succeeds with the suffixed name. -/
theorem collectMetrics_eval_cpu :
    collectMetrics [⟨"srv-1", "web"⟩] "tok" 50
      (fun _ _ _ => Except.ok
        [some ⟨"percent", some [⟨some "resource", some "srv-1"⟩], [⟨"t", 3⟩]⟩])
      "cpuUsage"
      ⟨"render_service_cpu_usage", "CPU usage for a Render service", "gauge"⟩
      none "now" =
    Except.ok
      ⟨⟨"render_service_cpu_usage_percent", "CPU usage for a Render service", "gauge"⟩,
       [⟨[("unit", "percent"), ("service_name", "web"), ("resource", "srv-1")], 3⟩]⟩ := by
  unfold collectMetrics collectMetricsValues
  have hc : chunkArray (List.map (fun service => service.id)
      [(⟨"srv-1", "web"⟩ : Service)]) 50 = [["srv-1"]] := by
    simp [chunkArray]
  rw [hc]
  rfl

/-- Witness for C4 at a concrete input: base name
`render_service_cpu_usage` with first-point unit `percent` yields
exactly `render_service_cpu_usage_percent`. -/
theorem collectMetrics_unit_suffix_witness :
    ∃ first rest u,
      (⟨⟨"render_service_cpu_usage_percent", "CPU usage for a Render service", "gauge"⟩,
        [⟨[("unit", "percent"), ("service_name", "web"), ("resource", "srv-1")], 3⟩]⟩ :
          MetricResult).values = first :: rest
      ∧ recordGet first.labels "unit" = some u
      ∧ (⟨⟨"render_service_cpu_usage_percent", "CPU usage for a Render service", "gauge"⟩,
          [⟨[("unit", "percent"), ("service_name", "web"), ("resource", "srv-1")], 3⟩]⟩ :
            MetricResult).definition.name =
          (⟨"render_service_cpu_usage", "CPU usage for a Render service", "gauge"⟩ :
            MetricDefinition).name ++ "_" ++ u
      ∧ (⟨⟨"render_service_cpu_usage_percent", "CPU usage for a Render service", "gauge"⟩,
          [⟨[("unit", "percent"), ("service_name", "web"), ("resource", "srv-1")], 3⟩]⟩ :
            MetricResult).definition.help =
          (⟨"render_service_cpu_usage", "CPU usage for a Render service", "gauge"⟩ :
            MetricDefinition).help
      ∧ (⟨⟨"render_service_cpu_usage_percent", "CPU usage for a Render service", "gauge"⟩,
          [⟨[("unit", "percent"), ("service_name", "web"), ("resource", "srv-1")], 3⟩]⟩ :
            MetricResult).definition.type =
          (⟨"render_service_cpu_usage", "CPU usage for a Render service", "gauge"⟩ :
            MetricDefinition).type :=
  collectMetrics_unit_suffix [⟨"srv-1", "web"⟩] "tok" 50
    (fun _ _ _ => Except.ok
      [some ⟨"percent", some [⟨some "resource", some "srv-1"⟩], [⟨"t", 3⟩]⟩])
    "cpuUsage"
    ⟨"render_service_cpu_usage", "CPU usage for a Render service", "gauge"⟩
    none "now" _ collectMetrics_eval_cpu

/-- C5: a successful family collection never carries an empty point
list; when the upstream calls succeed but zero points survive the merge,
the collection fails with the constructed `Empty metrics result` error,
which is a different constructor from the propagated upstream failure;
and an upstream-tagged failure is exactly a propagated rejection of the
batched fan-out. -/
theorem collectMetrics_empty_result :
    (∀ services apiToken batchSize metricFn metricFnName metricDefinition startTime
        twoMinutesAgo r,
      collectMetrics services apiToken batchSize metricFn metricFnName metricDefinition
        startTime twoMinutesAgo = Except.ok r → r.values ≠ [])
    ∧ (∀ services apiToken batchSize metricFn metricFnName metricDefinition startTime
        twoMinutesAgo,
      collectMetricsValues services apiToken batchSize metricFn startTime twoMinutesAgo =
        Except.ok [] →
      collectMetrics services apiToken batchSize metricFn metricFnName metricDefinition
        startTime twoMinutesAgo =
        Except.error (CollectError.emptyResult (emptyResultMessage metricFnName services)))
    ∧ (∀ msg u, CollectError.emptyResult msg ≠ CollectError.upstream u)
    ∧ (∀ services apiToken batchSize metricFn metricFnName metricDefinition startTime
        twoMinutesAgo e,
      collectMetrics services apiToken batchSize metricFn metricFnName metricDefinition
        startTime twoMinutesAgo = Except.error (CollectError.upstream e) →
      collectMetricsValues services apiToken batchSize metricFn startTime twoMinutesAgo =
        Except.error e) := by
  refine ⟨?_, ?_, ?_, ?_⟩
  · intro services apiToken batchSize metricFn metricFnName metricDefinition startTime
      twoMinutesAgo r h
    obtain ⟨values, _, hne, hrv, _⟩ := collectMetrics_ok_elim services apiToken batchSize
      metricFn metricFnName metricDefinition startTime twoMinutesAgo r h
    rw [hrv]
    exact hne
  · intro services apiToken batchSize metricFn metricFnName metricDefinition startTime
      twoMinutesAgo h
    unfold collectMetrics
    rw [h]
    rfl
  · intro msg u hc
    cases hc
  · intro services apiToken batchSize metricFn metricFnName metricDefinition startTime
      twoMinutesAgo e h
    unfold collectMetrics at h
    cases hv : collectMetricsValues services apiToken batchSize metricFn startTime
        twoMinutesAgo with
    | error e2 =>
      rw [hv] at h
      dsimp only at h
      cases h
      rfl
    | ok values =>
      rw [hv] at h
      dsimp only at h
      by_cases hlen : values.length = 0
      · rw [if_pos hlen] at h
        cases h
      · rw [if_neg hlen] at h
        cases h

/-- Evaluation helper: one service, one batch, upstream resolves to an
empty series list, so zero points survive. -/
theorem collectMetricsValues_eval_empty :
    collectMetricsValues [⟨"srv-1", "web"⟩] "tok" 50 (fun _ _ _ => Except.ok []) none
      "now" = Except.ok [] := by
  unfold collectMetricsValues
  have hc : chunkArray (List.map (fun service => service.id)
      [(⟨"srv-1", "web"⟩ : Service)]) 50 = [["srv-1"]] := by
    simp [chunkArray]
  rw [hc]
  rfl

/-- Witness for C5 at a concrete input: structurally valid but empty
upstream data makes the collection fail with the `Empty metrics result`
error. -/
theorem collectMetrics_empty_result_witness :
    collectMetrics [⟨"srv-1", "web"⟩] "tok" 50 (fun _ _ _ => Except.ok []) "cpuUsage"
      ⟨"render_service_cpu_usage", "CPU usage for a Render service", "gauge"⟩ none "now" =
      Except.error
        (CollectError.emptyResult (emptyResultMessage "cpuUsage" [⟨"srv-1", "web"⟩])) :=
  collectMetrics_empty_result.2.1 [⟨"srv-1", "web"⟩] "tok" 50 (fun _ _ _ => Except.ok [])
    "cpuUsage" ⟨"render_service_cpu_usage", "CPU usage for a Render service", "gauge"⟩
    none "now" collectMetricsValues_eval_empty

/-! ## Formatting of empty families -/

/-- A family with at least one point formats to a non-empty string (the
header alone is non-empty). -/
theorem formatMetricResult_length_pos (r : MetricResult) (h : r.values ≠ []) :
    0 < (formatMetricResult r).length := by
  unfold formatMetricResult
  rw [if_neg (fun hc => h (List.length_eq_zero.mp hc))]
  rw [String.length_append]
  have h1 : 0 < (formatMetricHeader r.definition).length := by
    unfold formatMetricHeader
    simp only [String.length_append]
    have h7 : ("# HELP " : String).length = 7 := rfl
    omega
  omega

/-- Dropping the empty-valued families from the handler's result list
does not change the assembled body. -/
theorem buildMetricsOutput_drop_empty (rs : List (Option MetricResult)) :
    buildMetricsOutput rs = buildMetricsOutput (rs.filter (fun x =>
      match x with
      | some r => !r.values.isEmpty
      | none => true)) := by
  unfold buildMetricsOutput
  congr 1
  induction rs with
  | nil => rfl
  | cons x rs ih =>
    cases x with
    | none =>
      simp only [List.filter_cons, List.filterMap_cons]
      exact ih
    | some r =>
      by_cases hv : r.values = []
      · have hfmt : formatMetricResult r = "" := by
          unfold formatMetricResult
          rw [if_pos (by rw [hv]; rfl)]
        have hpred : (!r.values.isEmpty) = false := by rw [hv]; rfl
        simp [List.filter_cons, List.filterMap_cons, hpred, hfmt, ih]
      · have hpred : (!r.values.isEmpty) = true := by
          cases hvv : r.values with
          | nil => exact absurd hvv hv
          | cons a l => rfl
        have hlen : 0 < (formatMetricResult r).length := formatMetricResult_length_pos r hv
        simp [List.filter_cons, List.filterMap_cons, hpred, hlen, ih]

/-- C7: a collection result with an empty values sequence formats to the
empty string (no HELP line, no TYPE line, no value lines), and such
families contribute nothing to the handler's concatenated body. -/
theorem formatMetricResult_empty_excluded :
    (∀ d : MetricDefinition, formatMetricResult ⟨d, []⟩ = "")
    ∧ (∀ rs : List (Option MetricResult),
        buildMetricsOutput rs = buildMetricsOutput (rs.filter (fun x =>
          match x with
          | some r => !r.values.isEmpty
          | none => true))) :=
  ⟨fun _ => rfl, buildMetricsOutput_drop_empty⟩

/-! ## Prefix-filter short-circuits -/

/-- C8: when no identifier carries the `srv-` prefix, `collectBandwidth`
returns an empty result without consulting the query capability (the
outcome is fixed for every `metricFn`) and without an error; likewise
`collectActiveConnections` when no identifier carries the `red-` or
`dpg-` prefix. -/
theorem collect_filter_to_empty :
    (∀ services apiToken batchSize
        (metricFn : String → List String → String →
          Except String (List (Option MetricResponse))) hourAgo twoMinutesAgo,
      (∀ svc ∈ services, strStartsWith svc.id "srv-" = false) →
      collectBandwidth services apiToken batchSize metricFn hourAgo twoMinutesAgo =
        Except.ok ⟨⟨"render_service_bandwidth", "Bandwidth used by a render service",
          "gauge"⟩, []⟩)
    ∧ (∀ services apiToken batchSize
        (metricFn : String → List String → String →
          Except String (List (Option MetricResponse))) twoMinutesAgo,
      (∀ svc ∈ services,
        strStartsWith svc.id "red-" = false ∧ strStartsWith svc.id "dpg-" = false) →
      collectActiveConnections services apiToken batchSize metricFn twoMinutesAgo =
        Except.ok ⟨⟨"render_service_active_connections",
          "Active connections for redis or postgres servers", "gauge"⟩, []⟩) := by
  constructor
  · intro services apiToken batchSize metricFn hourAgo twoMinutesAgo hno
    have hfil : services.filter (fun svc => strStartsWith svc.id "srv-") = [] := by
      rw [List.filter_eq_nil_iff]
      intro svc hm hc
      rw [hno svc hm] at hc
      exact Bool.false_ne_true hc
    unfold collectBandwidth
    rw [hfil]
    rfl
  · intro services apiToken batchSize metricFn twoMinutesAgo hno
    have hfil : services.filter
        (fun svc => strStartsWith svc.id "red-" || strStartsWith svc.id "dpg-") = [] := by
      rw [List.filter_eq_nil_iff]
      intro svc hm hc
      rw [(hno svc hm).1, (hno svc hm).2] at hc
      exact Bool.false_ne_true hc
    unfold collectActiveConnections
    rw [hfil]
    rfl

/-- Witness for C8 at concrete inputs: a cache-only resource list for
bandwidth and a compute-only resource list for active connections, with
a query capability that always rejects, still give empty successes. -/
theorem collect_filter_to_empty_witness :
    (∀ svc ∈ [(⟨"red-1", "cache"⟩ : Service)], strStartsWith svc.id "srv-" = false)
    ∧ collectBandwidth [⟨"red-1", "cache"⟩] "tok" 50 (fun _ _ _ => Except.error "boom")
        "hr" "now" =
      Except.ok ⟨⟨"render_service_bandwidth", "Bandwidth used by a render service",
        "gauge"⟩, []⟩
    ∧ (∀ svc ∈ [(⟨"srv-9", "web"⟩ : Service)],
        strStartsWith svc.id "red-" = false ∧ strStartsWith svc.id "dpg-" = false)
    ∧ collectActiveConnections [⟨"srv-9", "web"⟩] "tok" 50
        (fun _ _ _ => Except.error "boom") "now" =
      Except.ok ⟨⟨"render_service_active_connections",
        "Active connections for redis or postgres servers", "gauge"⟩, []⟩ :=
  ⟨by decide,
   collect_filter_to_empty.1 [⟨"red-1", "cache"⟩] "tok" 50
     (fun _ _ _ => Except.error "boom") "hr" "now" (by decide),
   by decide,
   collect_filter_to_empty.2 [⟨"srv-9", "web"⟩] "tok" 50
     (fun _ _ _ => Except.error "boom") "now" (by decide)⟩

/-! ## Resource cache -/

/-- C9: a failed refresh leaves the cached snapshot completely
untouched — the three resource lists and the refresh timestamp keep
their prior values, the error is only reported — and any subsequent read
returns exactly what it would have returned before the failed refresh. -/
theorem refreshResources_failure_frame (st : ResourceCacheState) (e : String) (now : Int) :
    (refreshResources st (Except.error e) now).1 = st
    ∧ (refreshResources st (Except.error e) now).1.services = st.services
    ∧ (refreshResources st (Except.error e) now).1.redises = st.redises
    ∧ (refreshResources st (Except.error e) now).1.postgreses = st.postgreses
    ∧ (refreshResources st (Except.error e) now).1.lastRefreshed = st.lastRefreshed
    ∧ (refreshResources st (Except.error e) now).2 = some e
    ∧ (∀ n, getResources ((refreshResources st (Except.error e) now).1) n =
        getResources st n) :=
  ⟨rfl, rfl, rfl, rfl, rfl, rfl, fun _ => rfl⟩

/-- Witness for C7 at a concrete input: an empty-valued family between
two non-empty families contributes nothing to the body. -/
theorem formatMetricResult_empty_excluded_witness :
    formatMetricResult ⟨⟨"m", "help", "gauge"⟩, []⟩ = ""
    ∧ buildMetricsOutput
        [some ⟨⟨"a", "ha", "gauge"⟩, [⟨[], 1⟩]⟩,
         some ⟨⟨"m", "help", "gauge"⟩, []⟩,
         some ⟨⟨"b", "hb", "gauge"⟩, [⟨[], 2⟩]⟩] =
      buildMetricsOutput
        ([some ⟨⟨"a", "ha", "gauge"⟩, [⟨[], 1⟩]⟩,
          some ⟨⟨"m", "help", "gauge"⟩, []⟩,
          some ⟨⟨"b", "hb", "gauge"⟩, [⟨[], 2⟩]⟩].filter (fun x =>
            match x with
            | some r => !r.values.isEmpty
            | none => true)) :=
  ⟨formatMetricResult_empty_excluded.1 ⟨"m", "help", "gauge"⟩,
   formatMetricResult_empty_excluded.2
     [some ⟨⟨"a", "ha", "gauge"⟩, [⟨[], 1⟩]⟩,
      some ⟨⟨"m", "help", "gauge"⟩, []⟩,
      some ⟨⟨"b", "hb", "gauge"⟩, [⟨[], 2⟩]⟩]⟩

/-! ## Handler orchestration -/

/-- C1: for a scrape whose initial resource-list fetch succeeds, the
handler answers 500 (with the short all-collectors-failed error string)
exactly when every launched family collector failed — which cannot
happen, because the service-count collector is infallible — and so it
always answers 200 with content type `text/plain` and a body equal to
the non-empty formatted blocks of the successful collectors, in launch
order, joined by single blank lines (each block ends in a newline and
the joiner is a newline). -/
theorem metricsHandler_response (services : List Service)
    (instanceCountResult cpuResult memoryResult bandwidthResult
      activeConnectionsResult : Except CollectError MetricResult) :
    ((metricsHandler (Except.ok services) instanceCountResult cpuResult memoryResult
        bandwidthResult activeConnectionsResult).status = 500 ↔
      ([instanceCountResult.toOption, some (collectServiceCountMetric services),
        cpuResult.toOption, memoryResult.toOption, bandwidthResult.toOption,
        activeConnectionsResult.toOption].all (fun x => x.isNone)) = true)
    ∧ (metricsHandler (Except.ok services) instanceCountResult cpuResult memoryResult
        bandwidthResult activeConnectionsResult).status = 200
    ∧ (metricsHandler (Except.ok services) instanceCountResult cpuResult memoryResult
        bandwidthResult activeConnectionsResult).contentType = some "text/plain"
    ∧ (metricsHandler (Except.ok services) instanceCountResult cpuResult memoryResult
        bandwidthResult activeConnectionsResult).body =
      String.intercalate "\n"
        (((([instanceCountResult.toOption, some (collectServiceCountMetric services),
            cpuResult.toOption, memoryResult.toOption, bandwidthResult.toOption,
            activeConnectionsResult.toOption].filterMap id).map formatMetricResult)).filter
          (fun output => 0 < output.length)) := by
  have hmem : some (collectServiceCountMetric services) ∈
      ([instanceCountResult.toOption, some (collectServiceCountMetric services),
        cpuResult.toOption, memoryResult.toOption, bandwidthResult.toOption,
        activeConnectionsResult.toOption].filter (fun x => x.isSome)) :=
    List.mem_filter.mpr ⟨by simp, rfl⟩
  have hne : ([instanceCountResult.toOption, some (collectServiceCountMetric services),
      cpuResult.toOption, memoryResult.toOption, bandwidthResult.toOption,
      activeConnectionsResult.toOption].filter (fun x => x.isSome)).length ≠ 0 := by
    have hpos := List.length_pos.mpr (List.ne_nil_of_mem hmem)
    omega
  have hres : metricsHandler (Except.ok services) instanceCountResult cpuResult
      memoryResult bandwidthResult activeConnectionsResult =
      ⟨200, some "text/plain",
        buildMetricsOutput [instanceCountResult.toOption,
          some (collectServiceCountMetric services), cpuResult.toOption,
          memoryResult.toOption, bandwidthResult.toOption,
          activeConnectionsResult.toOption]⟩ := by
    unfold metricsHandler
    dsimp only
    rw [if_neg hne]
  refine ⟨⟨?_, ?_⟩, by rw [hres], by rw [hres], by rw [hres]; rfl⟩
  · intro h500
    rw [hres] at h500
    simp at h500
  · intro hall
    simp only [List.all_cons, Option.isNone_some, Bool.false_and, Bool.and_false] at hall
    exact absurd hall Bool.false_ne_true

/-- Witness for C1 at a concrete input: with the instance-count collector
rejected and the others successful, the handler still answers 200 with
the plain-text content type. -/
theorem metricsHandler_response_witness :
    (metricsHandler (Except.ok [⟨"srv-1", "web"⟩])
      (Except.error (CollectError.upstream "boom"))
      (Except.ok ⟨⟨"a", "ha", "gauge"⟩, [⟨[], 1⟩]⟩)
      (Except.ok ⟨⟨"b", "hb", "gauge"⟩, [⟨[], 2⟩]⟩)
      (Except.ok ⟨⟨"c", "hc", "gauge"⟩, [⟨[], 3⟩]⟩)
      (Except.ok ⟨⟨"d", "hd", "gauge"⟩, [⟨[], 4⟩]⟩)).status = 200
    ∧ (metricsHandler (Except.ok [⟨"srv-1", "web"⟩])
      (Except.error (CollectError.upstream "boom"))
      (Except.ok ⟨⟨"a", "ha", "gauge"⟩, [⟨[], 1⟩]⟩)
      (Except.ok ⟨⟨"b", "hb", "gauge"⟩, [⟨[], 2⟩]⟩)
      (Except.ok ⟨⟨"c", "hc", "gauge"⟩, [⟨[], 3⟩]⟩)
      (Except.ok ⟨⟨"d", "hd", "gauge"⟩, [⟨[], 4⟩]⟩)).contentType = some "text/plain" :=
  ⟨(metricsHandler_response [⟨"srv-1", "web"⟩]
      (Except.error (CollectError.upstream "boom"))
      (Except.ok ⟨⟨"a", "ha", "gauge"⟩, [⟨[], 1⟩]⟩)
      (Except.ok ⟨⟨"b", "hb", "gauge"⟩, [⟨[], 2⟩]⟩)
      (Except.ok ⟨⟨"c", "hc", "gauge"⟩, [⟨[], 3⟩]⟩)
      (Except.ok ⟨⟨"d", "hd", "gauge"⟩, [⟨[], 4⟩]⟩)).2.1,
   (metricsHandler_response [⟨"srv-1", "web"⟩]
      (Except.error (CollectError.upstream "boom"))
      (Except.ok ⟨⟨"a", "ha", "gauge"⟩, [⟨[], 1⟩]⟩)
      (Except.ok ⟨⟨"b", "hb", "gauge"⟩, [⟨[], 2⟩]⟩)
      (Except.ok ⟨⟨"c", "hc", "gauge"⟩, [⟨[], 3⟩]⟩)
      (Except.ok ⟨⟨"d", "hd", "gauge"⟩, [⟨[], 4⟩]⟩)).2.2.1⟩

/-! ## Object identity of the metric definition -/

/-- Writing one reference leaves every other reference unchanged. -/
theorem storeRead_write_ne (store : DefStore) (i j : Nat) (d : MetricDefinition)
    (hne : i ≠ j) : storeRead (storeWrite store i d) j = storeRead store j := by
  unfold storeRead storeWrite
  rw [List.getD_eq_getElem?_getD, List.getD_eq_getElem?_getD, List.getElem?_set_ne hne]

/-- Reading back a valid reference just written. -/
theorem storeRead_write_self (store : DefStore) (i : Nat) (d : MetricDefinition)
    (hi : i < store.length) : storeRead (storeWrite store i d) i = d := by
  unfold storeRead storeWrite
  rw [List.getD_eq_getElem?_getD, List.getElem?_set_self hi]
  rfl

/-- Allocation leaves existing references unchanged. -/
theorem storeRead_append_lt (store : DefStore) (d : MetricDefinition) (j : Nat)
    (hj : j < store.length) : storeRead (store ++ [d]) j = storeRead store j := by
  unfold storeRead
  rw [List.getD_eq_getElem?_getD, List.getD_eq_getElem?_getD, List.getElem?_append_left hj]

/-- Reading the freshly allocated reference. -/
theorem storeRead_append_len (store : DefStore) (d : MetricDefinition) :
    storeRead (store ++ [d]) store.length = d := by
  unfold storeRead
  rw [List.getD_eq_getElem?_getD, List.getElem?_concat_length]
  rfl

/-- C10: `collectMetrics` never mutates the object behind the
caller-supplied base definition reference — on success and on failure
alike the base object is unchanged after the call — and a successful
call returns a DIFFERENT freshly allocated reference whose object is the
base definition with only the name suffixed, so repeated scrapes can
never observe a doubly-suffixed base name. -/
theorem collectMetricsRef_no_mutation (store : DefStore) (defRef : Nat)
    (services : List Service) (apiToken : String) (batchSize : Nat)
    (metricFn : String → List String → String → Except String (List (Option MetricResponse)))
    (metricFnName : String) (startTime : Option String) (twoMinutesAgo : String)
    (hlt : defRef < store.length) :
    storeRead (collectMetricsRef store defRef services apiToken batchSize metricFn
        metricFnName startTime twoMinutesAgo).1 defRef = storeRead store defRef
    ∧ (∀ ref values,
        (collectMetricsRef store defRef services apiToken batchSize metricFn
          metricFnName startTime twoMinutesAgo).2 = Except.ok (ref, values) →
        ref ≠ defRef
        ∧ storeRead (collectMetricsRef store defRef services apiToken batchSize metricFn
            metricFnName startTime twoMinutesAgo).1 ref =
          { storeRead store defRef with
              name := (storeRead store defRef).name ++ "_" ++
                jsString (recordGet ((values.headD ⟨[], 0⟩).labels) "unit") }) := by
  unfold collectMetricsRef
  cases hv : collectMetricsValues services apiToken batchSize metricFn startTime
      twoMinutesAgo with
  | error e =>
    refine ⟨rfl, ?_⟩
    intro ref values hok
    cases hok
  | ok values =>
    dsimp only
    by_cases hlen : values.length = 0
    · rw [if_pos hlen]
      refine ⟨rfl, ?_⟩
      intro ref values2 hok
      cases hok
    · rw [if_neg hlen]
      dsimp only [storeAlloc]
      constructor
      · rw [storeRead_write_ne _ _ _ _ (by omega), storeRead_append_lt _ _ _ hlt]
      · intro ref values2 hok
        injection hok with hpair
        injection hpair with href hvals
        subst href
        subst hvals
        refine ⟨by omega, ?_⟩
        rw [storeRead_write_self _ _ _ (by simp), storeRead_append_len]

/-- Evaluation helper for the store-level collection: same single-service
cpu scenario as `collectMetrics_eval_cpu`, with the base definition held
at reference 0 of a one-object store; the call allocates reference 1 for
the suffixed copy. -/
theorem collectMetricsRef_eval_cpu :
    collectMetricsRef
      [⟨"render_service_cpu_usage", "CPU usage for a Render service", "gauge"⟩] 0
      [⟨"srv-1", "web"⟩] "tok" 50
      (fun _ _ _ => Except.ok
        [some ⟨"percent", some [⟨some "resource", some "srv-1"⟩], [⟨"t", 3⟩]⟩])
      "cpuUsage" none "now" =
    ([⟨"render_service_cpu_usage", "CPU usage for a Render service", "gauge"⟩,
      ⟨"render_service_cpu_usage_percent", "CPU usage for a Render service", "gauge"⟩],
     Except.ok (1, [⟨[("unit", "percent"), ("service_name", "web"),
       ("resource", "srv-1")], 3⟩])) := by
  unfold collectMetricsRef collectMetricsValues
  have hc : chunkArray (List.map (fun service => service.id)
      [(⟨"srv-1", "web"⟩ : Service)]) 50 = [["srv-1"]] := by
    simp [chunkArray]
  rw [hc]
  rfl

/-- Witness for C10 at a concrete input: after a successful collection
the base object at reference 0 is unchanged and the returned reference 1
holds the suffixed copy. -/
theorem collectMetricsRef_no_mutation_witness :
    (0 : Nat) < (([⟨"render_service_cpu_usage", "CPU usage for a Render service",
        "gauge"⟩] : DefStore)).length
    ∧ storeRead (collectMetricsRef
        [⟨"render_service_cpu_usage", "CPU usage for a Render service", "gauge"⟩] 0
        [⟨"srv-1", "web"⟩] "tok" 50
        (fun _ _ _ => Except.ok
          [some ⟨"percent", some [⟨some "resource", some "srv-1"⟩], [⟨"t", 3⟩]⟩])
        "cpuUsage" none "now").1 0 =
      storeRead [⟨"render_service_cpu_usage", "CPU usage for a Render service",
        "gauge"⟩] 0
    ∧ ((1 : Nat) ≠ 0
      ∧ storeRead (collectMetricsRef
          [⟨"render_service_cpu_usage", "CPU usage for a Render service", "gauge"⟩] 0
          [⟨"srv-1", "web"⟩] "tok" 50
          (fun _ _ _ => Except.ok
            [some ⟨"percent", some [⟨some "resource", some "srv-1"⟩], [⟨"t", 3⟩]⟩])
          "cpuUsage" none "now").1 1 =
        { storeRead [⟨"render_service_cpu_usage", "CPU usage for a Render service",
            "gauge"⟩] 0 with
            name := (storeRead [⟨"render_service_cpu_usage",
                "CPU usage for a Render service", "gauge"⟩] 0).name ++ "_" ++
              jsString (recordGet ((([⟨[("unit", "percent"), ("service_name", "web"),
                ("resource", "srv-1")], 3⟩] : List MetricValue).headD
                  ⟨[], 0⟩).labels) "unit") }) :=
  ⟨by decide,
   (collectMetricsRef_no_mutation
      [⟨"render_service_cpu_usage", "CPU usage for a Render service", "gauge"⟩] 0
      [⟨"srv-1", "web"⟩] "tok" 50
      (fun _ _ _ => Except.ok
        [some ⟨"percent", some [⟨some "resource", some "srv-1"⟩], [⟨"t", 3⟩]⟩])
      "cpuUsage" none "now" (by decide)).1,
   (collectMetricsRef_no_mutation
      [⟨"render_service_cpu_usage", "CPU usage for a Render service", "gauge"⟩] 0
      [⟨"srv-1", "web"⟩] "tok" 50
      (fun _ _ _ => Except.ok
        [some ⟨"percent", some [⟨some "resource", some "srv-1"⟩], [⟨"t", 3⟩]⟩])
      "cpuUsage" none "now" (by decide)).2 1
      [⟨[("unit", "percent"), ("service_name", "web"), ("resource", "srv-1")], 3⟩]
      (by rw [collectMetricsRef_eval_cpu])⟩
